import Mathlib

/-! SmartCube PY32 firmware: the SK6812 bit-banged LED transmitter.

A shallow embedding of `Firmware/PY32/src/main.c`.  Every C function is a Lean
function returning the *trace* of externally visible events it produces, in
program order.  The functions that call other functions of the file are written
once, parametrised by what their callees do (`*_body`), so that the same body
yields both the list of calls a function makes and, with the real callees
plugged in, the hardware trace.

Machine integers are `Nat`/`Int` with explicit wrap-around.  The constants of
the vendor HAL headers (`GPIOA`, `GPIO_PIN_5`, `GPIO_PIN_SET`, ...) are kept
symbolic: their numeric values are not part of `main.c`.
-/

namespace SmartCube

/-! ## Data model -/

/-- The `PinName_t` enumeration. -/
inductive PinName_t
  | DataRight1 | DataRight2 | ShieldTopRight | DataTop2 | DataTop1
  | ShieldTopLeft | HallAdc | ShieldBottomRight | DataBottom1 | DataBottom2
  | ShieldBottomLeft | LedIn | DataLeft1 | DataLeft2
  deriving DecidableEq, Repr

/-- The integer value of an enumerator (`DataRight1 = 0`, then consecutive). -/
def PinName_t.val : PinName_t → Nat
  | .DataRight1 => 0 | .DataRight2 => 1 | .ShieldTopRight => 2 | .DataTop2 => 3
  | .DataTop1 => 4 | .ShieldTopLeft => 5 | .HallAdc => 6 | .ShieldBottomRight => 7
  | .DataBottom1 => 8 | .DataBottom2 => 9 | .ShieldBottomLeft => 10 | .LedIn => 11
  | .DataLeft1 => 12 | .DataLeft2 => 13

/-- The GPIO port blocks named in `main.c` (`GPIO_TypeDef *` constants of the HAL). -/
inductive GPIO_TypeDef
  | GPIOA | GPIOB | GPIOC
  deriving DecidableEq, Repr

/-- The pin masks named in `main.c` (`GPIO_PIN_n` constants of the HAL). -/
inductive GPIO_Pin
  | GPIO_PIN_0 | GPIO_PIN_1 | GPIO_PIN_2 | GPIO_PIN_3
  | GPIO_PIN_4 | GPIO_PIN_5 | GPIO_PIN_6 | GPIO_PIN_7
  deriving DecidableEq, Repr

/-- The HAL type `GPIO_PinState`. -/
inductive GPIO_PinState
  | GPIO_PIN_RESET | GPIO_PIN_SET
  deriving DecidableEq, Repr

/-- The only pin mode used by `main.c`, and the alternatives it does not use. -/
inductive GPIO_Mode
  | GPIO_MODE_INPUT | GPIO_MODE_OUTPUT_PP | GPIO_MODE_OUTPUT_OD
  deriving DecidableEq, Repr

/-- Pull configuration constants of the HAL. -/
inductive GPIO_Pull
  | GPIO_NOPULL | GPIO_PULLUP | GPIO_PULLDOWN
  deriving DecidableEq, Repr

/-- Speed configuration constants of the HAL. -/
inductive GPIO_Speed
  | GPIO_SPEED_FREQ_LOW | GPIO_SPEED_FREQ_MEDIUM | GPIO_SPEED_FREQ_HIGH
  deriving DecidableEq, Repr

/-- The HAL structure `GPIO_InitTypeDef`, with the four fields `main.c` fills in. -/
structure GPIO_InitTypeDef where
  Pin : GPIO_Pin
  Mode : GPIO_Mode
  Pull : GPIO_Pull
  Speed : GPIO_Speed
  deriving DecidableEq, Repr

/-- The structure `PinMap_t`. -/
structure PinMap_t where
  port : GPIO_TypeDef
  pin : GPIO_Pin
  deriving DecidableEq, Repr

open PinName_t GPIO_TypeDef GPIO_Pin GPIO_PinState GPIO_Mode GPIO_Pull GPIO_Speed

/-- The table `PinMap[]`, in index order of its designated initialisers. -/
def PinMap : List PinMap_t :=
  [ ⟨GPIOA, GPIO_PIN_5⟩,   -- [DataRight1]
    ⟨GPIOA, GPIO_PIN_6⟩,   -- [DataRight2]
    ⟨GPIOA, GPIO_PIN_7⟩,   -- [ShieldTopRight]
    ⟨GPIOC, GPIO_PIN_1⟩,   -- [DataTop2]
    ⟨GPIOB, GPIO_PIN_7⟩,   -- [DataTop1]
    ⟨GPIOB, GPIO_PIN_5⟩,   -- [ShieldTopLeft]
    ⟨GPIOA, GPIO_PIN_4⟩,   -- [HallAdc]
    ⟨GPIOA, GPIO_PIN_3⟩,   -- [ShieldBottomRight]
    ⟨GPIOA, GPIO_PIN_1⟩,   -- [DataBottom1]
    ⟨GPIOA, GPIO_PIN_0⟩,   -- [DataBottom2]
    ⟨GPIOB, GPIO_PIN_1⟩,   -- [ShieldBottomLeft]
    ⟨GPIOB, GPIO_PIN_2⟩,   -- [LedIn]
    ⟨GPIOB, GPIO_PIN_3⟩,   -- [DataLeft1]
    ⟨GPIOB, GPIO_PIN_4⟩ ]  -- [DataLeft2]

/-- The array read `PinMap[i]`.  Reads outside the 14 entries do not occur in the
program; the fallback value only makes the function total. -/
def PinMap_at (i : Nat) : PinMap_t :=
  PinMap.getD i ⟨GPIOA, GPIO_PIN_0⟩

/-- `#define HIGH 1` -/
def HIGH : Nat := 1

/-- `#define LOW 0` -/
def LOW : Nat := 0

/-- The externally visible events of the firmware: calls into the vendor HAL and
executed `nop` instructions. -/
inductive Event
  | HAL_Init
  | RCC_GPIO_CLK_ENABLE (port : GPIO_TypeDef)
  | HAL_GPIO_Init (port : GPIO_TypeDef) (init : GPIO_InitTypeDef)
  | HAL_GPIO_WritePin (port : GPIO_TypeDef) (pin : GPIO_Pin) (state : GPIO_PinState)
  | nop
  | HAL_Delay (ms : Nat)
  deriving DecidableEq, Repr

/-! ## Initialisation -/

/-- One iteration of the loop of `GPIO_InitCustom`, for the table entry `e`:
fill `GPIO_InitStruct`, call `HAL_GPIO_Init`, then the `if (LOW) ... else ...`
that writes the default level. -/
def GPIO_InitCustom_iter (e : PinMap_t) : List Event :=
  [Event.HAL_GPIO_Init e.port
      { Pin := e.pin, Mode := GPIO_MODE_OUTPUT_PP, Pull := GPIO_NOPULL,
        Speed := GPIO_SPEED_FREQ_HIGH }] ++
  (if LOW ≠ 0 then
    [Event.HAL_GPIO_WritePin e.port e.pin GPIO_PIN_SET]
  else
    [Event.HAL_GPIO_WritePin e.port e.pin GPIO_PIN_RESET])

/-- Conversion of an integer value to `uint32_t` (reduction modulo `2^32`). -/
def wrapUInt32 (x : Int) : Nat := (x % 4294967296).toNat

/-- The loop `for (int i = 0; i < sizeof(PinMap) / sizeof(PinMap[0]); i++)` of
`GPIO_InitCustom`, entered with counter value `i`: the trace of the remaining
iterations and the counter value on exit.  The comparison is unsigned (the
right-hand side is a `size_t`), so `i` is converted to `uint32_t` for it.  The
increment never leaves the range of `int`: the loop is left at 14. -/
def GPIO_InitCustom_loop (i : Int) : List Event × Int :=
  if wrapUInt32 i < PinMap.length then
    let r := GPIO_InitCustom_loop (i + 1)
    (GPIO_InitCustom_iter (PinMap_at i.toNat) ++ r.1, r.2)
  else
    ([], i)
termination_by (14 - wrapUInt32 i)
decreasing_by
  simp only [wrapUInt32, PinMap, List.length_cons, List.length_nil] at *
  omega

/-- `void GPIO_InitCustom(void)` -/
def GPIO_InitCustom : List Event :=
  [Event.RCC_GPIO_CLK_ENABLE GPIOA, Event.RCC_GPIO_CLK_ENABLE GPIOB,
   Event.RCC_GPIO_CLK_ENABLE GPIOC] ++ (GPIO_InitCustom_loop 0).1

/-- `void digitalWrite(PinName_t pin, uint8_t value)` -/
def digitalWrite (pin : PinName_t) (value : Nat) : List Event :=
  [Event.HAL_GPIO_WritePin (PinMap_at pin.val).port (PinMap_at pin.val).pin
      (if value % 256 ≠ 0 then GPIO_PIN_SET else GPIO_PIN_RESET)]

/-! ## SK6812 timing -/

/-- `#define LED_PIN LedIn` -/
def LED_PIN : PinName_t := LedIn

/-- `#define T0H_CYCLES 10` -/
def T0H_CYCLES : Nat := 10

/-- `#define T0L_CYCLES 19` -/
def T0L_CYCLES : Nat := 19

/-- `#define T1H_CYCLES 19` -/
def T1H_CYCLES : Nat := 19

/-- `#define T1L_CYCLES 10` -/
def T1L_CYCLES : Nat := 10

/-- The loop `while (cycles--) __asm__("nop");` entered with the `uint32_t`
counter holding `cycles`: the trace of executed `nop`s and the value left in the
counter on exit.  The post-decrement happens on every test, also the failing
one, and wraps modulo `2^32`. -/
def delay_cycles_loop (cycles : Nat) : List Event × Nat :=
  if cycles ≠ 0 then
    let r := delay_cycles_loop (wrapUInt32 ((cycles : Int) - 1))
    (Event.nop :: r.1, r.2)
  else
    ([], wrapUInt32 ((cycles : Int) - 1))
termination_by cycles
decreasing_by
  simp only [wrapUInt32]
  omega

/-- `static void delay_cycles(uint32_t cycles)` -/
def delay_cycles (cycles : Nat) : List Event :=
  (delay_cycles_loop (wrapUInt32 cycles)).1

/-! ## Bit, byte and frame encoders -/

/-- The body of `SK6812_SendBit`, parametrised by what its two callees do. -/
def SK6812_SendBit_body {ε : Type} (digitalWrite : PinName_t → Nat → List ε)
    (delay_cycles : Nat → List ε) (bit : Nat) : List ε :=
  if bit % 256 ≠ 0 then
    digitalWrite LED_PIN HIGH ++
    delay_cycles T1H_CYCLES ++
    digitalWrite LED_PIN LOW ++
    delay_cycles T1L_CYCLES
  else
    digitalWrite LED_PIN HIGH ++
    delay_cycles T0H_CYCLES ++
    digitalWrite LED_PIN LOW ++
    delay_cycles T0L_CYCLES

/-- `static void SK6812_SendBit(uint8_t bit)` -/
def SK6812_SendBit (bit : Nat) : List Event :=
  SK6812_SendBit_body digitalWrite delay_cycles bit

/-- The calls `SK6812_SendBit` makes. -/
inductive BitCall
  | digitalWrite (pin : PinName_t) (value : Nat)
  | delay_cycles (cycles : Nat)
  deriving DecidableEq, Repr

/-- The sequence of calls made by `SK6812_SendBit(bit)`, with their arguments. -/
def SK6812_SendBit_calls (bit : Nat) : List BitCall :=
  SK6812_SendBit_body (fun pin value => [BitCall.digitalWrite pin value])
    (fun cycles => [BitCall.delay_cycles cycles]) bit

/-- What a recorded call of `SK6812_SendBit` does. -/
def BitCall.run : BitCall → List Event
  | .digitalWrite pin value => SmartCube.digitalWrite pin value
  | .delay_cycles cycles => SmartCube.delay_cycles cycles

/-- Conversion of an `int` value to `int8_t` (two's complement wrap-around). -/
def wrapInt8 (x : Int) : Int := (x + 128) % 256 - 128

/-- The loop header `for (int8_t i = ...; i >= 0; i--)` of `SK6812_SendByte`,
entered with counter value `i` and running `body i` in each iteration: the trace
and the counter value on exit. -/
def SK6812_SendByte_loop {ε : Type} (body : Int → List ε) (i : Int) : List ε × Int :=
  if i ≥ 0 then
    let r := SK6812_SendByte_loop body (wrapInt8 (i - 1))
    (body i ++ r.1, r.2)
  else
    ([], i)
termination_by (i + 1).toNat
decreasing_by
  simp only [wrapInt8]
  omega

/-- The body of `SK6812_SendByte`, parametrised by what `SK6812_SendBit` does:
`for (int8_t i = 7; i >= 0; i--) SK6812_SendBit((byte >> i) & 0x01);` -/
def SK6812_SendByte_body {ε : Type} (sendBit : Nat → List ε) (byte : Nat) : List ε :=
  (SK6812_SendByte_loop (fun i => sendBit (((byte % 256) >>> i.toNat) &&& 0x01)) 7).1

/-- `static void SK6812_SendByte(uint8_t byte)` -/
def SK6812_SendByte (byte : Nat) : List Event :=
  SK6812_SendByte_body SK6812_SendBit byte

/-- The sequence of arguments with which `SK6812_SendByte(byte)` calls
`SK6812_SendBit`. -/
def SK6812_SendByte_calls (byte : Nat) : List Nat :=
  SK6812_SendByte_body (fun bit => [bit]) byte

/-- The values the loop counter `i` of `SK6812_SendByte` takes in the executed
iterations, and its value when the loop exits. -/
def SK6812_SendByte_counter : List Int × Int :=
  SK6812_SendByte_loop (fun i => [i]) 7

/-- The array `uint8_t colors[4][3]` as the caller's memory: `colors led ch` is the
byte stored in `colors[led][ch]`. -/
abbrev Frame := Nat → Nat → Nat

/-- The frame has 8-bit entries at its 4 x 3 positions. -/
def Frame.valid (colors : Frame) : Prop :=
  ∀ led, led < 4 → ∀ ch, ch < 3 → colors led ch < 256

/-- The frame whose rows are the given initialiser rows. -/
def Frame.ofRows (rows : List (List Nat)) : Frame :=
  fun led ch => (rows.getD led []).getD ch 0

/-- The loop `for (int led = 0; led < 4; led++)` of `SK6812_SendFrame`, entered with
counter value `led`: the trace of the remaining iterations and the counter value
on exit.  The increment never leaves the range of `int`: the loop is left at 4. -/
def SK6812_SendFrame_loop {ε : Type} (sendByte : Nat → List ε) (colors : Frame)
    (led : Int) : List ε × Int :=
  if led < 4 then
    let r := SK6812_SendFrame_loop sendByte colors (led + 1)
    (sendByte (colors led.toNat 1) ++   -- G
     sendByte (colors led.toNat 0) ++   -- R
     sendByte (colors led.toNat 2) ++   -- B
     r.1, r.2)
  else
    ([], led)
termination_by (4 - led).toNat
decreasing_by omega

/-- The body of `SK6812_SendFrame`, parametrised by what its two callees do: the
trace, and the contents of the array `colors` when the function returns (the
function contains no store to it). -/
def SK6812_SendFrame_body {ε : Type} (sendByte : Nat → List ε) (HAL_Delay : Nat → List ε)
    (colors : Frame) : List ε × Frame :=
  ((SK6812_SendFrame_loop sendByte colors 0).1 ++ HAL_Delay 1, colors)

/-- `void SK6812_SendFrame(uint8_t colors[4][3])` -/
def SK6812_SendFrame (colors : Frame) : List Event × Frame :=
  SK6812_SendFrame_body SK6812_SendByte (fun ms => [Event.HAL_Delay ms]) colors

/-- The calls `SK6812_SendFrame` makes. -/
inductive FrameCall
  | SK6812_SendByte (byte : Nat)
  | HAL_Delay (ms : Nat)
  deriving DecidableEq, Repr

/-- The sequence of calls made by `SK6812_SendFrame(colors)`, with their arguments. -/
def SK6812_SendFrame_calls (colors : Frame) : List FrameCall :=
  (SK6812_SendFrame_body (fun byte => [FrameCall.SK6812_SendByte byte])
    (fun ms => [FrameCall.HAL_Delay ms]) colors).1

/-- The bytes passed to `SK6812_SendByte` in a sequence of calls, in order. -/
def FrameCall.sentBytes : List FrameCall → List Nat
  | [] => []
  | .SK6812_SendByte byte :: cs => byte :: FrameCall.sentBytes cs
  | .HAL_Delay _ :: cs => FrameCall.sentBytes cs

/-- What a recorded call of `SK6812_SendFrame` does. -/
def FrameCall.run : FrameCall → List Event
  | .SK6812_SendByte byte => SmartCube.SK6812_SendByte byte
  | .HAL_Delay ms => [Event.HAL_Delay ms]

/-! ## The application -/

/-- The array `colors1` of `main`. -/
def colors1 : Frame :=
  Frame.ofRows [[0xFF, 0x00, 0x00],   -- Red
                [0x00, 0xFF, 0x00],   -- Green
                [0x00, 0x00, 0xFF],   -- Blue
                [0xFF, 0xFF, 0x00]]   -- Yellow

/-- The array `colors2` of `main`. -/
def colors2 : Frame :=
  Frame.ofRows [[0x00, 0x00, 0x00],   -- Off
                [0x20, 0x20, 0x20],   -- Dim White
                [0x40, 0x00, 0x00],   -- Dim Red
                [0x00, 0x40, 0x00]]   -- Dim Green

/-- One iteration of the `while (1)` loop of `main`, entered with the two arrays
holding `c1` and `c2`: the trace and the arrays afterwards. -/
def main_iter (c1 c2 : Frame) : List Event × Frame × Frame :=
  let r1 := SK6812_SendFrame c1
  let r2 := SK6812_SendFrame c2
  (r1.1 ++ [Event.HAL_Delay 500] ++ r2.1 ++ [Event.HAL_Delay 500], r1.2, r2.2)

/-- The first `n` iterations of the `while (1)` loop of `main`. -/
def main_loop : Nat → Frame → Frame → List Event
  | 0, _, _ => []
  | n + 1, c1, c2 =>
    let r := main_iter c1 c2
    r.1 ++ main_loop n r.2.1 r.2.2

/-- The trace of `int main(void)` up to the end of the `n`-th iteration of its
endless loop. -/
def main (n : Nat) : List Event :=
  [Event.HAL_Init] ++ GPIO_InitCustom ++ main_loop n colors1 colors2

/-! ## Observations on traces -/

/-- The bytes sent for LED `led`: its `[1]`, `[0]` and `[2]` entries, in this order. -/
def ledBytes (colors : Frame) (led : Nat) : List Nat :=
  [colors led 1, colors led 0, colors led 2]

/-- The total number of cycles requested from `delay_cycles` in a sequence of
calls. -/
def BitCall.requestedCycles : List BitCall → Nat
  | [] => 0
  | .delay_cycles cycles :: cs => cycles + BitCall.requestedCycles cs
  | .digitalWrite _ _ :: cs => BitCall.requestedCycles cs

/-- The event is a call of `HAL_Delay`. -/
def Event.isDelay : Event → Bool
  | .HAL_Delay _ => true
  | _ => false

/-- The write that drives the LED data pin (`PinMap[LedIn]`) high. -/
def ledHigh : Event := Event.HAL_GPIO_WritePin GPIOB GPIO_PIN_2 GPIO_PIN_SET

/-- The write that drives the LED data pin (`PinMap[LedIn]`) low. -/
def ledLow : Event := Event.HAL_GPIO_WritePin GPIOB GPIO_PIN_2 GPIO_PIN_RESET

/-- The (high-duration, low-duration) pairs of a sequence of calls made up of
pulses on the LED pin: each pulse is a write of a non-zero level, a delay, a write
of level zero, a delay.  `none` when the sequence is not of this shape. -/
def BitCall.pulses : List BitCall → Option (List (Nat × Nat))
  | [] => some []
  | .digitalWrite p1 v1 :: .delay_cycles h :: .digitalWrite p2 v2 :: .delay_cycles l :: cs =>
    if p1 = LED_PIN ∧ p2 = LED_PIN ∧ v1 % 256 ≠ 0 ∧ v2 % 256 = 0 then
      (BitCall.pulses cs).map (fun ps => (h, l) :: ps)
    else
      none
  | _ => none

/-- Decoding of one pulse, as a receiver reading the spec's two symbols does: bit 1
for `(T1H_CYCLES, T1L_CYCLES)`, bit 0 for `(T0H_CYCLES, T0L_CYCLES)`, nothing
otherwise. -/
def decodePulse (p : Nat × Nat) : Option Nat :=
  if p = (T1H_CYCLES, T1L_CYCLES) then some 1
  else if p = (T0H_CYCLES, T0L_CYCLES) then some 0
  else none

/-- Decoding of a sequence of pulses to bits, in order. -/
def decodePulses : List (Nat × Nat) → Option (List Nat)
  | [] => some []
  | p :: ps =>
    match decodePulse p, decodePulses ps with
    | some b, some bs => some (b :: bs)
    | _, _ => none

/-- The number whose binary digits are `bits`, most significant first. -/
def assembleMSB (bits : List Nat) : Nat :=
  bits.foldl (fun acc b => 2 * acc + b) 0

/-- The receiver's view of a byte transmission: the pulses of the call sequence,
decoded and assembled most-significant-bit first. -/
def decodeByte (cs : List BitCall) : Option Nat :=
  match BitCall.pulses cs with
  | some ps => (decodePulses ps).map assembleMSB
  | none => none

/-- The sequence of `digitalWrite` and `delay_cycles` calls made while
`SK6812_SendByte(byte)` runs (through its calls of `SK6812_SendBit`). -/
def SK6812_SendByte_bitCalls (byte : Nat) : List BitCall :=
  SK6812_SendByte_body SK6812_SendBit_calls byte

/-- The pulse `SK6812_SendBit` requests for a bit argument, read off its two
branches. -/
def bitPulse (bit : Nat) : Nat × Nat :=
  if bit % 256 ≠ 0 then (T1H_CYCLES, T1L_CYCLES) else (T0H_CYCLES, T0L_CYCLES)

/-- The bit arguments passed to `SK6812_SendBit` while `SK6812_SendFrame(colors)`
runs, in order: those of each byte it sends. -/
def frameBits (colors : Frame) : List Nat :=
  (FrameCall.sentBytes (SK6812_SendFrame_calls colors)).flatMap SK6812_SendByte_calls

/-- The frame with every channel of every LED `0x00`. -/
def zeroFrame : Frame :=
  Frame.ofRows [[0x00, 0x00, 0x00], [0x00, 0x00, 0x00], [0x00, 0x00, 0x00], [0x00, 0x00, 0x00]]

/-- Modelled from the spec: the vendor HAL's `HAL_Delay` is not part of the
repository; the spec describes it as the millisecond-granularity delay service used
for the latch.  The nominal duration, in microseconds, of `HAL_Delay(ms)`. -/
def HAL_Delay_us (ms : Nat) : Nat := 1000 * ms

/-- Two calls of `SK6812_SendFrame` in succession on the same array: the second call
reads the array as the first one left it.  The trace and the array afterwards. -/
def SK6812_SendFrame_twice (colors : Frame) : List Event × Frame :=
  let r1 := SK6812_SendFrame colors
  let r2 := SK6812_SendFrame r1.2
  (r1.1 ++ r2.1, r2.2)

/-! ## Unrolling the loops -/

theorem delay_cycles_loop_eq (n : Nat) (hn : n < 4294967296) :
    delay_cycles_loop n = (List.replicate n Event.nop, 4294967295) := by
  induction n with
  | zero =>
    rw [delay_cycles_loop]
    simp [wrapUInt32]
  | succ k ih =>
    rw [delay_cycles_loop]
    have hk : wrapUInt32 (((k + 1 : Nat) : Int) - 1) = k := by
      simp only [wrapUInt32]
      omega
    simp only [hk, ih (by omega)]
    simp [List.replicate_succ]

theorem delay_cycles_eq (n : Nat) (hn : n < 4294967296) :
    delay_cycles n = List.replicate n Event.nop := by
  have hw : wrapUInt32 (n : Int) = n := by
    simp only [wrapUInt32]
    omega
  unfold delay_cycles
  rw [hw, delay_cycles_loop_eq n hn]

theorem wrapInt8_pred (i : Int) (h0 : 0 ≤ i) (h1 : i ≤ 127) : wrapInt8 (i - 1) = i - 1 := by
  unfold wrapInt8
  omega

theorem SK6812_SendByte_loop_neg {ε : Type} (body : Int → List ε) :
    SK6812_SendByte_loop body (-1) = ([], -1) := by
  rw [SK6812_SendByte_loop]
  simp

theorem SK6812_SendByte_loop_step {ε : Type} (body : Int → List ε) (i : Int)
    (h0 : 0 ≤ i) (h1 : i ≤ 127) :
    SK6812_SendByte_loop body i =
      (body i ++ (SK6812_SendByte_loop body (i - 1)).1,
       (SK6812_SendByte_loop body (i - 1)).2) := by
  rw [SK6812_SendByte_loop]
  simp [h0, wrapInt8_pred i h0 h1]

theorem SK6812_SendByte_loop_seven {ε : Type} (body : Int → List ε) :
    SK6812_SendByte_loop body 7 =
      (body 7 ++ (body 6 ++ (body 5 ++ (body 4 ++ (body 3 ++ (body 2 ++
        (body 1 ++ (body 0 ++ []))))))), -1) := by
  have e7 : (7 : Int) - 1 = 6 := by omega
  have e6 : (6 : Int) - 1 = 5 := by omega
  have e5 : (5 : Int) - 1 = 4 := by omega
  have e4 : (4 : Int) - 1 = 3 := by omega
  have e3 : (3 : Int) - 1 = 2 := by omega
  have e2 : (2 : Int) - 1 = 1 := by omega
  have e1 : (1 : Int) - 1 = 0 := by omega
  have e0 : (0 : Int) - 1 = -1 := by omega
  rw [SK6812_SendByte_loop_step body 7 (by omega) (by omega), e7,
    SK6812_SendByte_loop_step body 6 (by omega) (by omega), e6,
    SK6812_SendByte_loop_step body 5 (by omega) (by omega), e5,
    SK6812_SendByte_loop_step body 4 (by omega) (by omega), e4,
    SK6812_SendByte_loop_step body 3 (by omega) (by omega), e3,
    SK6812_SendByte_loop_step body 2 (by omega) (by omega), e2,
    SK6812_SendByte_loop_step body 1 (by omega) (by omega), e1,
    SK6812_SendByte_loop_step body 0 (by omega) (by omega), e0,
    SK6812_SendByte_loop_neg]

theorem SK6812_SendFrame_loop_exit {ε : Type} (sendByte : Nat → List ε) (colors : Frame) :
    SK6812_SendFrame_loop sendByte colors 4 = ([], 4) := by
  rw [SK6812_SendFrame_loop]
  simp

theorem SK6812_SendFrame_loop_step {ε : Type} (sendByte : Nat → List ε) (colors : Frame)
    (led : Int) (h : led < 4) :
    SK6812_SendFrame_loop sendByte colors led =
      (sendByte (colors led.toNat 1) ++ sendByte (colors led.toNat 0) ++
        sendByte (colors led.toNat 2) ++ (SK6812_SendFrame_loop sendByte colors (led + 1)).1,
       (SK6812_SendFrame_loop sendByte colors (led + 1)).2) := by
  rw [SK6812_SendFrame_loop]
  simp [h]

theorem SK6812_SendFrame_loop_zero {ε : Type} (sendByte : Nat → List ε) (colors : Frame) :
    SK6812_SendFrame_loop sendByte colors 0 =
      ((ledBytes colors 0 ++ ledBytes colors 1 ++ ledBytes colors 2 ++
          ledBytes colors 3).flatMap sendByte, 4) := by
  have e0 : (0 : Int) + 1 = 1 := by omega
  have e1 : (1 : Int) + 1 = 2 := by omega
  have e2 : (2 : Int) + 1 = 3 := by omega
  have e3 : (3 : Int) + 1 = 4 := by omega
  have t0 : (0 : Int).toNat = 0 := by omega
  have t1 : (1 : Int).toNat = 1 := by omega
  have t2 : (2 : Int).toNat = 2 := by omega
  have t3 : (3 : Int).toNat = 3 := by omega
  rw [SK6812_SendFrame_loop_step sendByte colors 0 (by omega), e0,
    SK6812_SendFrame_loop_step sendByte colors 1 (by omega), e1,
    SK6812_SendFrame_loop_step sendByte colors 2 (by omega), e2,
    SK6812_SendFrame_loop_step sendByte colors 3 (by omega), e3,
    SK6812_SendFrame_loop_exit, t0, t1, t2, t3]
  simp [ledBytes, List.flatMap_cons, List.append_assoc]

theorem GPIO_InitCustom_loop_exit : GPIO_InitCustom_loop 14 = ([], 14) := by
  rw [GPIO_InitCustom_loop]
  simp [wrapUInt32, PinMap]

theorem GPIO_InitCustom_loop_step (i : Int) (h0 : 0 ≤ i) (h1 : i < 14) :
    GPIO_InitCustom_loop i =
      (GPIO_InitCustom_iter (PinMap_at i.toNat) ++ (GPIO_InitCustom_loop (i + 1)).1,
       (GPIO_InitCustom_loop (i + 1)).2) := by
  have hw : wrapUInt32 i < PinMap.length := by
    simp only [wrapUInt32, PinMap, List.length_cons, List.length_nil]
    omega
  rw [GPIO_InitCustom_loop]
  simp [hw]

theorem GPIO_InitCustom_loop_from (k : Nat) (hk : k ≤ 14) :
    GPIO_InitCustom_loop ((14 - k : Nat) : Int) =
      ((PinMap.drop (14 - k)).flatMap GPIO_InitCustom_iter, 14) := by
  induction k with
  | zero =>
    have e : (((14 - 0 : Nat)) : Int) = 14 := by omega
    rw [e, GPIO_InitCustom_loop_exit]
    simp [PinMap]
  | succ k ih =>
    have e : (((14 - (k + 1) : Nat) : Int)) + 1 = ((14 - k : Nat) : Int) := by omega
    have hd : PinMap.drop (14 - (k + 1)) =
        PinMap_at (14 - (k + 1)) :: PinMap.drop (14 - k) := by
      have hlen : 14 - (k + 1) < PinMap.length := by
        simp only [PinMap, List.length_cons, List.length_nil]
        omega
      have e2 : 14 - k = 14 - (k + 1) + 1 := by omega
      rw [e2, PinMap_at, List.getD_eq_getElem _ _ hlen]
      exact List.drop_eq_getElem_cons hlen
    rw [GPIO_InitCustom_loop_step _ (by omega) (by omega), e, ih (by omega), hd]
    simp [List.flatMap_cons]

theorem GPIO_InitCustom_eq :
    GPIO_InitCustom =
      [Event.RCC_GPIO_CLK_ENABLE GPIOA, Event.RCC_GPIO_CLK_ENABLE GPIOB,
       Event.RCC_GPIO_CLK_ENABLE GPIOC] ++ PinMap.flatMap GPIO_InitCustom_iter := by
  have h := GPIO_InitCustom_loop_from 14 (by omega)
  have e : (((14 - 14 : Nat)) : Int) = 0 := by omega
  rw [e] at h
  unfold GPIO_InitCustom
  rw [h]
  simp

theorem GPIO_InitCustom_iter_eq (e : PinMap_t) :
    GPIO_InitCustom_iter e =
      [Event.HAL_GPIO_Init e.port
        { Pin := e.pin, Mode := GPIO_MODE_OUTPUT_PP, Pull := GPIO_NOPULL,
          Speed := GPIO_SPEED_FREQ_HIGH },
       Event.HAL_GPIO_WritePin e.port e.pin GPIO_PIN_RESET] := by
  simp [GPIO_InitCustom_iter, LOW]

theorem main_loop_eq (n : Nat) (c1 c2 : Frame) :
    main_loop n c1 c2 = (List.replicate n (main_iter c1 c2).1).flatten := by
  induction n with
  | zero => rfl
  | succ k ih =>
    have h1 : (main_iter c1 c2).2.1 = c1 := rfl
    have h2 : (main_iter c1 c2).2.2 = c2 := rfl
    simp only [main_loop, h1, h2, ih, List.replicate_succ, List.flatten_cons]

/-! ## A trace is the expansion of its calls -/

theorem SK6812_SendBit_eq_calls (bit : Nat) :
    SK6812_SendBit bit = (SK6812_SendBit_calls bit).flatMap BitCall.run := by
  unfold SK6812_SendBit SK6812_SendBit_calls SK6812_SendBit_body
  split <;> simp [BitCall.run]

theorem SK6812_SendByte_body_eq {ε : Type} (sendBit : Nat → List ε) (byte : Nat) :
    SK6812_SendByte_body sendBit byte = (SK6812_SendByte_calls byte).flatMap sendBit := by
  unfold SK6812_SendByte_calls SK6812_SendByte_body
  rw [SK6812_SendByte_loop_seven, SK6812_SendByte_loop_seven]
  simp [List.flatMap_cons]

theorem SK6812_SendByte_calls_eq (byte : Nat) :
    SK6812_SendByte_calls byte =
      (List.range 8).map (fun k => ((byte % 256) >>> (7 - k)) &&& 1) := by
  unfold SK6812_SendByte_calls SK6812_SendByte_body
  rw [SK6812_SendByte_loop_seven]
  have t7 : (7 : Int).toNat = 7 := by omega
  have t6 : (6 : Int).toNat = 6 := by omega
  have t5 : (5 : Int).toNat = 5 := by omega
  have t4 : (4 : Int).toNat = 4 := by omega
  have t3 : (3 : Int).toNat = 3 := by omega
  have t2 : (2 : Int).toNat = 2 := by omega
  have t1 : (1 : Int).toNat = 1 := by omega
  have t0 : (0 : Int).toNat = 0 := by omega
  simp only [t7, t6, t5, t4, t3, t2, t1, t0]
  simp [List.range_succ]

theorem SK6812_SendByte_calls_length (v : Nat) : (SK6812_SendByte_calls v).length = 8 := by
  rw [SK6812_SendByte_calls_eq]
  simp

theorem SK6812_SendByte_eq_bitCalls (byte : Nat) :
    SK6812_SendByte byte = (SK6812_SendByte_bitCalls byte).flatMap BitCall.run := by
  have h1 : SK6812_SendByte byte = (SK6812_SendByte_calls byte).flatMap SK6812_SendBit :=
    SK6812_SendByte_body_eq SK6812_SendBit byte
  have h2 : SK6812_SendByte_bitCalls byte =
      (SK6812_SendByte_calls byte).flatMap SK6812_SendBit_calls :=
    SK6812_SendByte_body_eq SK6812_SendBit_calls byte
  rw [h1, h2, List.flatMap_assoc]
  congr 1
  funext b
  exact SK6812_SendBit_eq_calls b

theorem SK6812_SendFrame_calls_eq (colors : Frame) :
    SK6812_SendFrame_calls colors =
      (ledBytes colors 0 ++ ledBytes colors 1 ++ ledBytes colors 2 ++
        ledBytes colors 3).map FrameCall.SK6812_SendByte ++ [FrameCall.HAL_Delay 1] := by
  unfold SK6812_SendFrame_calls SK6812_SendFrame_body
  rw [SK6812_SendFrame_loop_zero]
  simp [ledBytes]

theorem SK6812_SendFrame_trace_eq (colors : Frame) :
    (SK6812_SendFrame colors).1 =
      (ledBytes colors 0 ++ ledBytes colors 1 ++ ledBytes colors 2 ++
        ledBytes colors 3).flatMap SK6812_SendByte ++ [Event.HAL_Delay 1] := by
  unfold SK6812_SendFrame SK6812_SendFrame_body
  rw [SK6812_SendFrame_loop_zero]

theorem SK6812_SendFrame_eq_calls (colors : Frame) :
    (SK6812_SendFrame colors).1 = (SK6812_SendFrame_calls colors).flatMap FrameCall.run := by
  rw [SK6812_SendFrame_trace_eq, SK6812_SendFrame_calls_eq]
  simp [ledBytes, List.flatMap_cons, FrameCall.run]

theorem sentBytes_calls (colors : Frame) :
    FrameCall.sentBytes (SK6812_SendFrame_calls colors) =
      ledBytes colors 0 ++ ledBytes colors 1 ++ ledBytes colors 2 ++ ledBytes colors 3 := by
  rw [SK6812_SendFrame_calls_eq]
  simp [ledBytes, FrameCall.sentBytes]

theorem SK6812_SendFrame_bits (colors : Frame) :
    (SK6812_SendFrame colors).1 =
      (frameBits colors).flatMap SK6812_SendBit ++ [Event.HAL_Delay 1] := by
  have hb : ∀ v, SK6812_SendByte v = (SK6812_SendByte_calls v).flatMap SK6812_SendBit :=
    fun v => SK6812_SendByte_body_eq SK6812_SendBit v
  rw [SK6812_SendFrame_trace_eq, frameBits, sentBytes_calls]
  simp [ledBytes, List.flatMap_cons, hb]

theorem frameBits_length (colors : Frame) : (frameBits colors).length = 96 := by
  rw [frameBits, sentBytes_calls]
  simp [ledBytes, List.flatMap_cons, SK6812_SendByte_calls_length]

theorem frameBits_ne_nil (colors : Frame) : frameBits colors ≠ [] := by
  intro h
  have := frameBits_length colors
  rw [h] at this
  exact absurd this (by decide)

theorem frameBits_zeroFrame : frameBits zeroFrame = List.replicate 96 0 := by
  rw [frameBits, sentBytes_calls]
  simp only [ledBytes, zeroFrame, Frame.ofRows, List.flatMap_cons, List.flatMap_nil,
    List.cons_append, List.nil_append, SK6812_SendByte_calls_eq]
  simp [List.range_succ]

/-! ## The pulse of one bit -/

theorem digitalWrite_LED_HIGH : digitalWrite LED_PIN HIGH = [ledHigh] := by
  simp [digitalWrite, LED_PIN, HIGH, ledHigh, PinMap_at, PinMap, PinName_t.val]

theorem digitalWrite_LED_LOW : digitalWrite LED_PIN LOW = [ledLow] := by
  simp [digitalWrite, LED_PIN, LOW, ledLow, PinMap_at, PinMap, PinName_t.val]

theorem SK6812_SendBit_one (bit : Nat) (h : bit % 256 ≠ 0) :
    SK6812_SendBit bit =
      ledHigh :: (List.replicate 19 Event.nop ++ ledLow :: List.replicate 10 Event.nop) := by
  unfold SK6812_SendBit SK6812_SendBit_body
  rw [if_pos h, digitalWrite_LED_HIGH, digitalWrite_LED_LOW]
  simp only [T1H_CYCLES, T1L_CYCLES]
  rw [delay_cycles_eq 19 (by omega), delay_cycles_eq 10 (by omega)]
  simp

theorem SK6812_SendBit_zero (bit : Nat) (h : bit % 256 = 0) :
    SK6812_SendBit bit =
      ledHigh :: (List.replicate 10 Event.nop ++ ledLow :: List.replicate 19 Event.nop) := by
  unfold SK6812_SendBit SK6812_SendBit_body
  rw [if_neg (by simpa using h), digitalWrite_LED_HIGH, digitalWrite_LED_LOW]
  simp only [T0H_CYCLES, T0L_CYCLES]
  rw [delay_cycles_eq 19 (by omega), delay_cycles_eq 10 (by omega)]
  simp

theorem SK6812_SendBit_cases (bit : Nat) :
    SK6812_SendBit bit =
        ledHigh :: (List.replicate 10 Event.nop ++ ledLow :: List.replicate 19 Event.nop) ∨
    SK6812_SendBit bit =
        ledHigh :: (List.replicate 19 Event.nop ++ ledLow :: List.replicate 10 Event.nop) := by
  by_cases h : bit % 256 = 0
  · exact Or.inl (SK6812_SendBit_zero bit h)
  · exact Or.inr (SK6812_SendBit_one bit h)

theorem SK6812_SendBit_ends (bit : Nat) :
    ∃ pre k, (k = T0L_CYCLES ∨ k = T1L_CYCLES) ∧
      SK6812_SendBit bit = pre ++ [ledLow] ++ List.replicate k Event.nop := by
  rcases SK6812_SendBit_cases bit with h | h
  · exact ⟨ledHigh :: List.replicate 10 Event.nop, 19, Or.inl rfl, by rw [h]; simp⟩
  · exact ⟨ledHigh :: List.replicate 19 Event.nop, 10, Or.inr rfl, by rw [h]; simp⟩

theorem count_ledHigh_bits (bits : List Nat) :
    (bits.flatMap SK6812_SendBit).count ledHigh = bits.length := by
  induction bits with
  | nil => rfl
  | cons b bs ih =>
    rw [List.flatMap_cons, List.count_append, ih]
    rcases SK6812_SendBit_cases b with h | h <;> rw [h] <;>
      simp [ledHigh, ledLow, List.count_cons, List.count_append, List.count_replicate] <;> omega

theorem count_ledLow_bits (bits : List Nat) :
    (bits.flatMap SK6812_SendBit).count ledLow = bits.length := by
  induction bits with
  | nil => rfl
  | cons b bs ih =>
    rw [List.flatMap_cons, List.count_append, ih]
    rcases SK6812_SendBit_cases b with h | h <;> rw [h] <;>
      simp [ledHigh, ledLow, List.count_cons, List.count_append, List.count_replicate] <;> omega

theorem count_nop_bits (bits : List Nat) :
    (bits.flatMap SK6812_SendBit).count Event.nop = 29 * bits.length := by
  induction bits with
  | nil => rfl
  | cons b bs ih =>
    rw [List.flatMap_cons, List.count_append, ih]
    rcases SK6812_SendBit_cases b with h | h <;> rw [h] <;>
      simp [ledHigh, ledLow, List.count_cons, List.count_append, List.count_replicate] <;> omega

theorem isDelay_bits (bits : List Nat) :
    ∀ e ∈ bits.flatMap SK6812_SendBit, e.isDelay = false := by
  intro e he
  rw [List.mem_flatMap] at he
  obtain ⟨b, _, hb⟩ := he
  rcases SK6812_SendBit_cases b with h | h <;> rw [h] at hb <;>
    simp only [List.mem_cons, List.mem_append, List.mem_replicate] at hb <;>
    rcases hb with rfl | ⟨_, rfl⟩ | rfl | ⟨_, rfl⟩ <;> rfl

theorem bits_start (bits : List Nat) (h : bits ≠ []) :
    ∃ rest, bits.flatMap SK6812_SendBit = ledHigh :: rest := by
  cases bits with
  | nil => exact absurd rfl h
  | cons b bs =>
    rw [List.flatMap_cons]
    rcases SK6812_SendBit_cases b with hb | hb <;> rw [hb] <;> exact ⟨_, rfl⟩

theorem bits_end (bits : List Nat) (h : bits ≠ []) :
    ∃ pre k, (k = T0L_CYCLES ∨ k = T1L_CYCLES) ∧
      bits.flatMap SK6812_SendBit = pre ++ [ledLow] ++ List.replicate k Event.nop := by
  obtain ⟨init, last, rfl⟩ : ∃ init last, bits = init ++ [last] :=
    ⟨bits.dropLast, bits.getLast h, (List.dropLast_append_getLast h).symm⟩
  obtain ⟨pre, k, hk, hl⟩ := SK6812_SendBit_ends last
  refine ⟨init.flatMap SK6812_SendBit ++ pre, k, hk, ?_⟩
  rw [List.flatMap_append, List.flatMap_cons, List.flatMap_nil, List.append_nil, hl]
  simp

/-! ## Decoding what was sent -/

theorem BitCall.pulses_SendBit_append (bit : Nat) (cs : List BitCall) :
    BitCall.pulses (SK6812_SendBit_calls bit ++ cs) =
      (BitCall.pulses cs).map (fun ps => bitPulse bit :: ps) := by
  unfold SK6812_SendBit_calls SK6812_SendBit_body bitPulse
  split <;> simp [BitCall.pulses, HIGH, LOW]

theorem BitCall.pulses_flatMap (bits : List Nat) :
    BitCall.pulses (bits.flatMap SK6812_SendBit_calls) = some (bits.map bitPulse) := by
  induction bits with
  | nil => rfl
  | cons b bs ih =>
    rw [List.flatMap_cons, BitCall.pulses_SendBit_append, ih]
    rfl

theorem decodePulse_bitPulse (bit : Nat) (h : bit = 0 ∨ bit = 1) :
    decodePulse (bitPulse bit) = some bit := by
  rcases h with rfl | rfl <;> decide

theorem decodePulses_bitPulse (bits : List Nat) (h : ∀ b ∈ bits, b = 0 ∨ b = 1) :
    decodePulses (bits.map bitPulse) = some bits := by
  induction bits with
  | nil => rfl
  | cons b bs ih =>
    have hb := decodePulse_bitPulse b (h b (List.mem_cons_self b bs))
    have hbs := ih (fun x hx => h x (List.mem_cons_of_mem b hx))
    simp only [List.map_cons, decodePulses, hb, hbs]

theorem assembleMSB_bits (v : Nat) (hv : v < 256) :
    assembleMSB ((List.range 8).map (fun k => (v >>> (7 - k)) &&& 1)) = v := by
  simp only [assembleMSB, List.range_succ, List.range_zero, List.nil_append, List.cons_append,
    List.map_cons, List.map_nil, List.foldl_cons, List.foldl_nil, Nat.and_one_is_mod,
    Nat.shiftRight_eq_div_pow]
  norm_num
  omega

/-! ## The claims -/

/-- C1: for every frame, the bytes `SK6812_SendFrame` passes to `SK6812_SendByte`
are, in order, `colors[0][1], colors[0][0], colors[0][2], ..., colors[3][1],
colors[3][0], colors[3][2]` (green, red, blue per LED, LEDs in input order), twelve
in all; the calls are these twelve followed by `HAL_Delay(1)`, and the hardware
trace is what these calls do.  For `colors1` the bytes are
`00,FF,00, FF,00,00, 00,00,FF, FF,FF,00`. -/
theorem C1_SendFrame_GRB_order (colors : Frame) :
    FrameCall.sentBytes (SK6812_SendFrame_calls colors) =
      [colors 0 1, colors 0 0, colors 0 2,
       colors 1 1, colors 1 0, colors 1 2,
       colors 2 1, colors 2 0, colors 2 2,
       colors 3 1, colors 3 0, colors 3 2] ∧
    (FrameCall.sentBytes (SK6812_SendFrame_calls colors)).length = 12 ∧
    (SK6812_SendFrame colors).1 = (SK6812_SendFrame_calls colors).flatMap FrameCall.run ∧
    FrameCall.sentBytes (SK6812_SendFrame_calls colors1) =
      [0x00, 0xFF, 0x00, 0xFF, 0x00, 0x00, 0x00, 0x00, 0xFF, 0xFF, 0xFF, 0x00] := by
  have h : ∀ c : Frame, FrameCall.sentBytes (SK6812_SendFrame_calls c) =
      [c 0 1, c 0 0, c 0 2, c 1 1, c 1 0, c 1 2, c 2 1, c 2 0, c 2 2,
       c 3 1, c 3 0, c 3 2] := by
    intro c
    rw [SK6812_SendFrame_calls_eq]
    simp [ledBytes, FrameCall.sentBytes]
  refine ⟨h colors, ?_, SK6812_SendFrame_eq_calls colors, ?_⟩
  · rw [h colors]
    rfl
  · rw [h colors1]
    simp [colors1, Frame.ofRows]

/-- C2: for every 8-bit value `v`, `SK6812_SendByte(v)` returns after calling
`SK6812_SendBit` exactly eight times; the `k`-th call (`k = 0..7`) receives
`(v >> (7 - k)) & 1`, the bits of `v` most significant first, each argument 0 or 1;
the hardware trace is the eight bit traces in this order.  The loop counter takes the
values 7, 6, ..., 0 and the loop exits with the counter at -1. -/
theorem C2_SendByte_MSB_first (v : Nat) (hv : v < 256) :
    SK6812_SendByte_calls v = (List.range 8).map (fun k => (v >>> (7 - k)) &&& 1) ∧
    (SK6812_SendByte_calls v).length = 8 ∧
    (∀ k, k < 8 → (SK6812_SendByte_calls v)[k]? = some ((v >>> (7 - k)) &&& 1)) ∧
    (∀ b ∈ SK6812_SendByte_calls v, b = 0 ∨ b = 1) ∧
    SK6812_SendByte v = (SK6812_SendByte_calls v).flatMap SK6812_SendBit ∧
    SK6812_SendByte_counter = ([7, 6, 5, 4, 3, 2, 1, 0], -1) := by
  have hcalls : SK6812_SendByte_calls v =
      (List.range 8).map (fun k => (v >>> (7 - k)) &&& 1) := by
    rw [SK6812_SendByte_calls_eq, Nat.mod_eq_of_lt hv]
  refine ⟨hcalls, ?_, ?_, ?_, SK6812_SendByte_body_eq SK6812_SendBit v, ?_⟩
  · rw [hcalls]
    simp
  · intro k hk
    rw [hcalls, List.getElem?_map, List.getElem?_range hk]
    rfl
  · intro b hb
    rw [hcalls, List.mem_map] at hb
    obtain ⟨k, _, rfl⟩ := hb
    rw [Nat.and_one_is_mod]
    omega
  · unfold SK6812_SendByte_counter
    rw [SK6812_SendByte_loop_seven]
    rfl

theorem C2_SendByte_MSB_first_witness :
    (0xA5 : Nat) < 256 ∧ SK6812_SendByte_calls 0xA5 = [1, 0, 1, 0, 0, 1, 0, 1] :=
  ⟨by omega, (C2_SendByte_MSB_first 0xA5 (by omega)).1.trans (by decide)⟩

/-- C3: for every bit argument `b` (an 8-bit value), `SK6812_SendBit(b)` makes exactly
four calls in this order: `digitalWrite(LED_PIN, HIGH)`, `delay_cycles(H)`,
`digitalWrite(LED_PIN, LOW)`, `delay_cycles(L)`, where `(H, L)` is
`(T1H_CYCLES, T1L_CYCLES) = (19, 10)` when `b` is non-zero (so for `b = 1`) and
`(T0H_CYCLES, T0L_CYCLES) = (10, 19)` when `b = 0`.  `LED_PIN` is `LedIn`, mapped to
GPIOB pin 2; the hardware trace is what these four calls do: the high write, `H`
nops, the low write, `L` nops, and every pin write in it is to that pin. -/
theorem C3_SendBit_pulse (b : Nat) (hb : b < 256) :
    SK6812_SendBit_calls b =
      [BitCall.digitalWrite LED_PIN HIGH,
       BitCall.delay_cycles (if b = 0 then T0H_CYCLES else T1H_CYCLES),
       BitCall.digitalWrite LED_PIN LOW,
       BitCall.delay_cycles (if b = 0 then T0L_CYCLES else T1L_CYCLES)] ∧
    (T1H_CYCLES, T1L_CYCLES) = (19, 10) ∧ (T0H_CYCLES, T0L_CYCLES) = (10, 19) ∧
    LED_PIN = LedIn ∧ PinMap_at LedIn.val = ⟨GPIOB, GPIO_PIN_2⟩ ∧
    SK6812_SendBit b = (SK6812_SendBit_calls b).flatMap BitCall.run ∧
    SK6812_SendBit b =
      [Event.HAL_GPIO_WritePin GPIOB GPIO_PIN_2 GPIO_PIN_SET] ++
      List.replicate (if b = 0 then 10 else 19) Event.nop ++
      [Event.HAL_GPIO_WritePin GPIOB GPIO_PIN_2 GPIO_PIN_RESET] ++
      List.replicate (if b = 0 then 19 else 10) Event.nop ∧
    (∀ port pin state, Event.HAL_GPIO_WritePin port pin state ∈ SK6812_SendBit b →
      port = GPIOB ∧ pin = GPIO_PIN_2) := by
  have htrace : SK6812_SendBit b =
      [Event.HAL_GPIO_WritePin GPIOB GPIO_PIN_2 GPIO_PIN_SET] ++
      List.replicate (if b = 0 then 10 else 19) Event.nop ++
      [Event.HAL_GPIO_WritePin GPIOB GPIO_PIN_2 GPIO_PIN_RESET] ++
      List.replicate (if b = 0 then 19 else 10) Event.nop := by
    by_cases h0 : b = 0
    · rw [SK6812_SendBit_zero b (by omega)]
      simp [h0, ledHigh, ledLow]
    · rw [SK6812_SendBit_one b (by omega)]
      simp [h0, ledHigh, ledLow]
  refine ⟨?_, rfl, rfl, rfl, ?_, SK6812_SendBit_eq_calls b, htrace, ?_⟩
  · unfold SK6812_SendBit_calls SK6812_SendBit_body
    by_cases h0 : b = 0
    · simp [h0]
    · have : b % 256 ≠ 0 := by omega
      simp [h0, this]
  · simp [PinMap_at, PinMap, PinName_t.val]
  · intro port pin state hmem
    rw [htrace] at hmem
    simp only [List.mem_append, List.mem_singleton, List.mem_replicate,
      Event.HAL_GPIO_WritePin.injEq] at hmem
    rcases hmem with ((h | h) | h) | h
    · exact ⟨h.1, h.2.1⟩
    · exact absurd h.2 (by simp)
    · exact ⟨h.1, h.2.1⟩
    · exact absurd h.2 (by simp)

theorem C3_SendBit_pulse_witness :
    (1 : Nat) < 256 ∧
    SK6812_SendBit_calls 1 =
      [BitCall.digitalWrite LedIn 1, BitCall.delay_cycles 19,
       BitCall.digitalWrite LedIn 0, BitCall.delay_cycles 10] :=
  ⟨by omega, (C3_SendBit_pulse 1 (by omega)).1⟩

/-- C4: the requested bit period is the same for both bit values:
`T0H_CYCLES + T0L_CYCLES = T1H_CYCLES + T1L_CYCLES = 29`.  For every bit argument the
delay cycles requested by `SK6812_SendBit` add up to 29, which is also the number of
`nop`s in its hardware trace; so every frame, whatever its contents, runs
`96 * 29` nops, 29 for each of its 96 bits. -/
theorem C4_constant_bit_period (b : Nat) (colors : Frame) :
    T0H_CYCLES + T0L_CYCLES = 29 ∧ T1H_CYCLES + T1L_CYCLES = 29 ∧
    BitCall.requestedCycles (SK6812_SendBit_calls 0) =
      BitCall.requestedCycles (SK6812_SendBit_calls 1) ∧
    BitCall.requestedCycles (SK6812_SendBit_calls b) = 29 ∧
    (SK6812_SendBit b).count Event.nop = 29 ∧
    (SK6812_SendFrame colors).1.count Event.nop = 96 * 29 := by
  refine ⟨rfl, rfl, rfl, ?_, ?_, ?_⟩
  · unfold SK6812_SendBit_calls SK6812_SendBit_body
    split <;> rfl
  · have h := count_nop_bits [b]
    simpa using h
  · rw [SK6812_SendFrame_bits, List.count_append, count_nop_bits, frameBits_length]
    simp [List.count_cons]

/-- C5: round trip.  For every 8-bit value `v`, the calls made while
`SK6812_SendByte(v)` runs (its hardware trace is what these calls do) form eight
pulses: high write, delay, low write, delay.  Decoding each (high, low) pair as bit 1
when it is `(T1H_CYCLES, T1L_CYCLES)` and bit 0 when it is `(T0H_CYCLES, T0L_CYCLES)`
and assembling the eight bits most significant first gives back `v`.  The two pairs
differ, so the decoding is well defined. -/
theorem C5_byte_round_trip (v : Nat) (hv : v < 256) :
    decodeByte (SK6812_SendByte_bitCalls v) = some v ∧
    (BitCall.pulses (SK6812_SendByte_bitCalls v)).map List.length = some 8 ∧
    SK6812_SendByte v = (SK6812_SendByte_bitCalls v).flatMap BitCall.run ∧
    (T1H_CYCLES, T1L_CYCLES) ≠ (T0H_CYCLES, T0L_CYCLES) := by
  have hc := SK6812_SendByte_calls_eq v
  rw [Nat.mod_eq_of_lt hv] at hc
  have hbits : ∀ b ∈ SK6812_SendByte_calls v, b = 0 ∨ b = 1 := by
    intro b hb
    rw [hc, List.mem_map] at hb
    obtain ⟨k, _, rfl⟩ := hb
    rw [Nat.and_one_is_mod]
    omega
  have hp : BitCall.pulses (SK6812_SendByte_bitCalls v) =
      some ((SK6812_SendByte_calls v).map bitPulse) := by
    unfold SK6812_SendByte_bitCalls
    rw [SK6812_SendByte_body_eq, BitCall.pulses_flatMap]
  refine ⟨?_, ?_, SK6812_SendByte_eq_bitCalls v, by decide⟩
  · unfold decodeByte
    rw [hp]
    simp only [decodePulses_bitPulse _ hbits, Option.map_some']
    rw [hc, assembleMSB_bits v hv]
  · rw [hp, hc]
    simp

theorem C5_byte_round_trip_witness :
    (0xA5 : Nat) < 256 ∧ decodeByte (SK6812_SendByte_bitCalls 0xA5) = some 0xA5 :=
  ⟨by omega, (C5_byte_round_trip 0xA5 (by omega)).1⟩

/-- C6: for every frame, whatever its channel values, `SK6812_SendFrame` sends 96
bit pulses before the latch delay: its trace is the traces of 96 calls
of `SK6812_SendBit` (4 LEDs x 3 channels x 8 bits) followed by `HAL_Delay(1)`, with
exactly 96 high writes and 96 low writes on the LED pin.  For the all-zero frame all
96 pulses are the 0-bit pulse: high, `T0H_CYCLES` nops, low, `T0L_CYCLES` nops. -/
theorem C6_full_bit_count (colors : Frame) :
    (SK6812_SendFrame colors).1 =
      (frameBits colors).flatMap SK6812_SendBit ++ [Event.HAL_Delay 1] ∧
    (frameBits colors).length = 96 ∧
    ((frameBits colors).flatMap SK6812_SendBit).count ledHigh = 96 ∧
    ((frameBits colors).flatMap SK6812_SendBit).count ledLow = 96 ∧
    (SK6812_SendFrame zeroFrame).1 =
      (List.replicate 96
        (ledHigh :: (List.replicate T0H_CYCLES Event.nop ++
          ledLow :: List.replicate T0L_CYCLES Event.nop))).flatten ++
      [Event.HAL_Delay 1] := by
  refine ⟨SK6812_SendFrame_bits colors, frameBits_length colors, ?_, ?_, ?_⟩
  · rw [count_ledHigh_bits, frameBits_length]
  · rw [count_ledLow_bits, frameBits_length]
  · rw [SK6812_SendFrame_bits, frameBits_zeroFrame, List.flatMap_replicate,
      SK6812_SendBit_zero 0 (by decide)]
    rfl

/-- C7: for every frame, `SK6812_SendFrame` latches after all 96 bits.  Its trace
ends with `HAL_Delay(1)`, the only `HAL_Delay` in it; nominally 1000 us, at least the
50 us of the spec and more than the 80 us of the code comment.  Before that delay
the trace is: earlier events, the write driving the LED pin low, then only nops
(`T0L_CYCLES` or `T1L_CYCLES` of them); nothing follows the delay inside the call.
Every frame trace starts with the write driving the LED pin high, so in two
consecutive calls the first high write of the second frame comes directly after the
`HAL_Delay(1)` that follows the last low write of the first. -/
theorem C7_latch_after_frame (f g : Frame) :
    (SK6812_SendFrame f).1.getLast? = some (Event.HAL_Delay 1) ∧
    (SK6812_SendFrame f).1.countP Event.isDelay = 1 ∧
    50 ≤ HAL_Delay_us 1 ∧ 80 < HAL_Delay_us 1 ∧
    (∃ pre k, (k = T0L_CYCLES ∨ k = T1L_CYCLES) ∧
      (SK6812_SendFrame f).1 =
        pre ++ [ledLow] ++ List.replicate k Event.nop ++ [Event.HAL_Delay 1]) ∧
    (∃ pre k rest, (k = T0L_CYCLES ∨ k = T1L_CYCLES) ∧
      (SK6812_SendFrame f).1 ++ (SK6812_SendFrame g).1 =
        pre ++ [ledLow] ++ List.replicate k Event.nop ++ [Event.HAL_Delay 1] ++
          [ledHigh] ++ rest ∧
      (SK6812_SendFrame f).1 =
        pre ++ [ledLow] ++ List.replicate k Event.nop ++ [Event.HAL_Delay 1] ∧
      (SK6812_SendFrame g).1 = [ledHigh] ++ rest) := by
  obtain ⟨pre, k, hk, hpre⟩ := bits_end (frameBits f) (frameBits_ne_nil f)
  obtain ⟨rest, hrest⟩ := bits_start (frameBits g) (frameBits_ne_nil g)
  have hf : (SK6812_SendFrame f).1 =
      pre ++ [ledLow] ++ List.replicate k Event.nop ++ [Event.HAL_Delay 1] := by
    rw [SK6812_SendFrame_bits, hpre]
  have hg : (SK6812_SendFrame g).1 = [ledHigh] ++ (rest ++ [Event.HAL_Delay 1]) := by
    rw [SK6812_SendFrame_bits, hrest]
    simp
  refine ⟨?_, ?_, by decide, by decide, ⟨pre, k, hk, hf⟩,
    ⟨pre, k, rest ++ [Event.HAL_Delay 1], hk, ?_, hf, hg⟩⟩
  · rw [hf, List.getLast?_concat]
  · rw [SK6812_SendFrame_bits, List.countP_append,
      List.countP_eq_zero.mpr (fun e he => by simp [isDelay_bits _ e he])]
    rfl
  · rw [hf, hg]
    simp

/-- C8: transmitting the same frame twice yields the same pulse sequence twice.  For
every frame `f`, two calls of `SK6812_SendFrame` in succession on the array produce
the trace of one call concatenated with itself, and each call leaves the array as it
was; the trace is determined by the array contents at the 4 x 3 positions read.  In
`main`, every iteration of the endless loop therefore produces the same trace. -/
theorem C8_same_frame_same_trace (f : Frame) (n : Nat) :
    SK6812_SendFrame_twice f = ((SK6812_SendFrame f).1 ++ (SK6812_SendFrame f).1, f) ∧
    (SK6812_SendFrame f).2 = f ∧
    (∀ g : Frame, (∀ led, led < 4 → ∀ ch, ch < 3 → g led ch = f led ch) →
      (SK6812_SendFrame g).1 = (SK6812_SendFrame f).1) ∧
    main_loop n colors1 colors2 =
      (List.replicate n (main_iter colors1 colors2).1).flatten := by
  refine ⟨rfl, rfl, ?_, main_loop_eq n colors1 colors2⟩
  intro g hg
  rw [SK6812_SendFrame_trace_eq, SK6812_SendFrame_trace_eq]
  simp only [ledBytes]
  rw [hg 0 (by omega) 0 (by omega), hg 0 (by omega) 1 (by omega), hg 0 (by omega) 2 (by omega),
    hg 1 (by omega) 0 (by omega), hg 1 (by omega) 1 (by omega), hg 1 (by omega) 2 (by omega),
    hg 2 (by omega) 0 (by omega), hg 2 (by omega) 1 (by omega), hg 2 (by omega) 2 (by omega),
    hg 3 (by omega) 0 (by omega), hg 3 (by omega) 1 (by omega), hg 3 (by omega) 2 (by omega)]

/-- C9: for every 32-bit unsigned cycle count `n`, `delay_cycles(n)` returns after
exactly `n` loop iterations, each executing one `nop`, and its trace contains nothing
else (no pin write, no HAL call); the counter is left at `0xFFFFFFFF` by the
post-decrement of the failing test.  For `n = 0` the trace is empty. -/
theorem C9_delay_cycles_exact (n : Nat) (hn : n < 4294967296) :
    delay_cycles n = List.replicate n Event.nop ∧
    (delay_cycles n).length = n ∧
    (∀ e ∈ delay_cycles n, e = Event.nop) ∧
    delay_cycles_loop n = (List.replicate n Event.nop, 4294967295) ∧
    delay_cycles 0 = [] ∧
    delay_cycles_loop 0 = ([], 4294967295) := by
  have h := delay_cycles_eq n hn
  refine ⟨h, ?_, ?_, delay_cycles_loop_eq n hn, ?_, ?_⟩
  · rw [h, List.length_replicate]
  · intro e he
    rw [h] at he
    exact (List.mem_replicate.mp he).2
  · rw [delay_cycles_eq 0 (by omega)]
    rfl
  · rw [delay_cycles_loop_eq 0 (by omega)]
    rfl

theorem C9_delay_cycles_exact_witness :
    (4294967295 : Nat) < 4294967296 ∧
    delay_cycles 4294967295 = List.replicate 4294967295 Event.nop :=
  ⟨by omega, (C9_delay_cycles_exact 4294967295 (by omega)).1⟩

/-- C10: `GPIO_InitCustom` gives every mapped pin the same default level, low.  After
enabling the three port clocks it takes the 14 entries of `PinMap` in order and for
each configures the pin as push-pull output (`HAL_GPIO_Init`) and then writes
`GPIO_PIN_RESET`; it never writes `GPIO_PIN_SET`.  `LedIn` is GPIOB pin 2 and is among
them.  `main` runs `HAL_Init` and `GPIO_InitCustom` before the first
`SK6812_SendFrame`, so the LED pin is a push-pull output when the first frame
starts. -/
theorem C10_init_default_low (n : Nat) :
    GPIO_InitCustom =
      [Event.RCC_GPIO_CLK_ENABLE GPIOA, Event.RCC_GPIO_CLK_ENABLE GPIOB,
       Event.RCC_GPIO_CLK_ENABLE GPIOC] ++
      PinMap.flatMap (fun e =>
        [Event.HAL_GPIO_Init e.port
          { Pin := e.pin, Mode := GPIO_MODE_OUTPUT_PP, Pull := GPIO_NOPULL,
            Speed := GPIO_SPEED_FREQ_HIGH },
         Event.HAL_GPIO_WritePin e.port e.pin GPIO_PIN_RESET]) ∧
    PinMap.length = 14 ∧
    PinMap_at LedIn.val = ⟨GPIOB, GPIO_PIN_2⟩ ∧
    PinMap_at LedIn.val ∈ PinMap ∧
    (∀ port pin, Event.HAL_GPIO_WritePin port pin GPIO_PIN_SET ∉ GPIO_InitCustom) ∧
    (∃ before after, GPIO_InitCustom =
      before ++
      [Event.HAL_GPIO_Init GPIOB
        { Pin := GPIO_PIN_2, Mode := GPIO_MODE_OUTPUT_PP, Pull := GPIO_NOPULL,
          Speed := GPIO_SPEED_FREQ_HIGH },
       Event.HAL_GPIO_WritePin GPIOB GPIO_PIN_2 GPIO_PIN_RESET] ++ after) ∧
    (∃ rest, main (n + 1) =
      [Event.HAL_Init] ++ GPIO_InitCustom ++ (SK6812_SendFrame colors1).1 ++ rest) := by
  have hfun : GPIO_InitCustom_iter = fun e =>
      [Event.HAL_GPIO_Init e.port
        { Pin := e.pin, Mode := GPIO_MODE_OUTPUT_PP, Pull := GPIO_NOPULL,
          Speed := GPIO_SPEED_FREQ_HIGH },
       Event.HAL_GPIO_WritePin e.port e.pin GPIO_PIN_RESET] :=
    funext GPIO_InitCustom_iter_eq
  have heq := GPIO_InitCustom_eq
  rw [hfun] at heq
  refine ⟨heq, rfl, ?_, ?_, ?_, ?_, ?_⟩
  · simp [PinMap_at, PinMap, PinName_t.val]
  · simp [PinMap_at, PinMap, PinName_t.val]
  · intro port pin hmem
    rw [heq] at hmem
    simp [PinMap] at hmem
  · rw [heq]
    exact ⟨[Event.RCC_GPIO_CLK_ENABLE GPIOA, Event.RCC_GPIO_CLK_ENABLE GPIOB,
        Event.RCC_GPIO_CLK_ENABLE GPIOC] ++
        (PinMap.take 11).flatMap (fun e =>
          [Event.HAL_GPIO_Init e.port
            { Pin := e.pin, Mode := GPIO_MODE_OUTPUT_PP, Pull := GPIO_NOPULL,
              Speed := GPIO_SPEED_FREQ_HIGH },
           Event.HAL_GPIO_WritePin e.port e.pin GPIO_PIN_RESET]),
      (PinMap.drop 12).flatMap (fun e =>
          [Event.HAL_GPIO_Init e.port
            { Pin := e.pin, Mode := GPIO_MODE_OUTPUT_PP, Pull := GPIO_NOPULL,
              Speed := GPIO_SPEED_FREQ_HIGH },
           Event.HAL_GPIO_WritePin e.port e.pin GPIO_PIN_RESET]), by simp [PinMap]⟩
  · refine ⟨[Event.HAL_Delay 500] ++ (SK6812_SendFrame colors2).1 ++ [Event.HAL_Delay 500] ++
      main_loop n colors1 colors2, ?_⟩
    simp only [main, main_loop, main_iter]
    have h1 : (SK6812_SendFrame colors1).2 = colors1 := rfl
    have h2 : (SK6812_SendFrame colors2).2 = colors2 := rfl
    rw [h1, h2]
    simp only [List.append_assoc]

end SmartCube
